import Mathlib

set_option autoImplicit false

namespace PregnancyFoodChecker

/-- JSON values as produced by the Python `json.loads` call in
`src/routes/analyze.py`.  Numbers keep only whether they are zero (all that
Python truthiness needs) together with their source lexeme (what `str()`
prints for integers). -/
inductive Json where
  | null
  | bool (b : Bool)
  | num (isZero : Bool) (lexeme : String)
  | str (s : String)
  | arr (elems : List Json)
  | obj (entries : List (String × Json))

mutual

/-- Size of a JSON value, used as fuel for the decidable equality below. -/
def jsonSize : Json → Nat
  | Json.null => 1
  | Json.bool _ => 1
  | Json.num _ _ => 1
  | Json.str _ => 1
  | Json.arr xs => 1 + jsonSizeList xs
  | Json.obj kvs => 1 + jsonSizeEntries kvs

/-- Total size of a list of JSON values. -/
def jsonSizeList : List Json → Nat
  | [] => 0
  | x :: xs => jsonSize x + jsonSizeList xs

/-- Total size of the values of a key-value list. -/
def jsonSizeEntries : List (String × Json) → Nat
  | [] => 0
  | kv :: kvs => jsonSize kv.2 + jsonSizeEntries kvs

end

/-- Pointwise boolean equality of lists, used to build decidable equality of
the nested `Json` inductive. -/
def listBeqWith {α : Type} (f : α → α → Bool) : List α → List α → Bool
  | [], [] => true
  | x :: xs, y :: ys => f x y && listBeqWith f xs ys
  | _, _ => false

/-- Pointwise boolean equality of key-value lists. -/
def entriesBeqWith {α : Type} (f : α → α → Bool) :
    List (String × α) → List (String × α) → Bool
  | [], [] => true
  | (k1, v1) :: xs, (k2, v2) :: ys => k1 == k2 && f v1 v2 && entriesBeqWith f xs ys
  | _, _ => false

/-- Fuel-bounded boolean equality on `Json` (structural recursion on the fuel,
so that it evaluates inside the kernel). -/
def beqJson : Nat → Json → Json → Bool
  | 0, _, _ => false
  | n + 1, a, b =>
    match a, b with
    | Json.null, Json.null => true
    | Json.bool x, Json.bool y => x == y
    | Json.num z1 l1, Json.num z2 l2 => z1 == z2 && l1 == l2
    | Json.str x, Json.str y => x == y
    | Json.arr xs, Json.arr ys => listBeqWith (fun u v => beqJson n u v) xs ys
    | Json.obj xs, Json.obj ys => entriesBeqWith (fun u v => beqJson n u v) xs ys
    | _, _ => false

theorem listBeqWith_iff {α : Type} {f : α → α → Bool} :
    ∀ {xs ys : List α}, (∀ x ∈ xs, ∀ y, (f x y = true ↔ x = y)) →
      (listBeqWith f xs ys = true ↔ xs = ys) := by
  intro xs
  induction xs with
  | nil => intro ys _; cases ys <;> simp [listBeqWith]
  | cons x xs ih =>
    intro ys hf
    cases ys with
    | nil => simp [listBeqWith]
    | cons y ys =>
      have hx := hf x (by simp) y
      have ht := @ih ys (fun z hz w => hf z (by simp [hz]) w)
      simp [listBeqWith, hx, ht]

theorem entriesBeqWith_iff {α : Type} {f : α → α → Bool} :
    ∀ {xs ys : List (String × α)},
      (∀ kv ∈ xs, ∀ y, (f kv.2 y = true ↔ kv.2 = y)) →
      (entriesBeqWith f xs ys = true ↔ xs = ys) := by
  intro xs
  induction xs with
  | nil => intro ys _; cases ys <;> simp [entriesBeqWith]
  | cons x xs ih =>
    intro ys hf
    cases ys with
    | nil => cases x; simp [entriesBeqWith]
    | cons y ys =>
      cases x with
      | mk k1 v1 =>
        cases y with
        | mk k2 v2 =>
          have hx := hf (k1, v1) (by simp) v2
          have ht := @ih ys (fun z hz w => hf z (by simp [hz]) w)
          simp [entriesBeqWith, hx, ht, and_assoc, Prod.mk.injEq]

theorem jsonSizeList_le {x : Json} : ∀ {xs : List Json}, x ∈ xs →
    jsonSize x ≤ jsonSizeList xs := by
  intro xs
  induction xs with
  | nil => intro h; cases h
  | cons y ys ih =>
    intro h
    rcases List.mem_cons.mp h with h1 | h2
    · subst h1; simp [jsonSizeList]
    · have := ih h2; simp [jsonSizeList]; omega

theorem jsonSizeEntries_le {kv : String × Json} :
    ∀ {kvs : List (String × Json)}, kv ∈ kvs →
    jsonSize kv.2 ≤ jsonSizeEntries kvs := by
  intro kvs
  induction kvs with
  | nil => intro h; cases h
  | cons y ys ih =>
    intro h
    rcases List.mem_cons.mp h with h1 | h2
    · subst h1; simp [jsonSizeEntries]
    · have := ih h2; simp [jsonSizeEntries]; omega

theorem beqJson_iff : ∀ (n : Nat) (a b : Json), jsonSize a < n →
    (beqJson n a b = true ↔ a = b) := by
  intro n
  induction n with
  | zero => intro a b h; exact absurd h (Nat.not_lt_zero _)
  | succ n ih =>
    intro a b h
    cases a <;> cases b
    case arr.arr xs ys =>
      simp only [beqJson, Json.arr.injEq]
      refine listBeqWith_iff (fun x hx y => ih x y ?_)
      have h1 : jsonSize x ≤ jsonSizeList xs := jsonSizeList_le hx
      simp only [jsonSize] at h
      omega
    case obj.obj xs ys =>
      simp only [beqJson, Json.obj.injEq]
      refine entriesBeqWith_iff (fun kv hkv y => ih kv.2 y ?_)
      have h1 : jsonSize kv.2 ≤ jsonSizeEntries xs := jsonSizeEntries_le hkv
      simp only [jsonSize] at h
      omega
    all_goals simp [beqJson]

/-- Decidable equality for the nested `Json` inductive, built from the
fuelled boolean equality so that it both compiles and reduces inside the
kernel. -/
instance : DecidableEq Json := fun a b =>
  decidable_of_iff _ (beqJson_iff (jsonSize a + 1) a b (Nat.lt_succ_self _))

/-- Boolean equality on `Except`, to decide equations between modelled
results. -/
def exceptBeq {ε α : Type} [DecidableEq ε] [DecidableEq α] :
    Except ε α → Except ε α → Bool
  | Except.error x, Except.error y => decide (x = y)
  | Except.ok x, Except.ok y => decide (x = y)
  | _, _ => false

instance {ε α : Type} [DecidableEq ε] [DecidableEq α] : DecidableEq (Except ε α) :=
  fun a b =>
    decidable_of_iff (exceptBeq a b = true) (by cases a <;> cases b <;> simp [exceptBeq])

/-- Python truthiness of a JSON value: `None`, `False`, zero, the empty
string, the empty list and the empty dict are falsy, everything else truthy.
This is what `f.get('risk')` is tested with in the list comprehension at
analyze.py line 122. -/
def truthy : Json → Bool
  | Json.null => false
  | Json.bool b => b
  | Json.num z _ => !z
  | Json.str s => !s.data.isEmpty
  | Json.arr xs => !xs.isEmpty
  | Json.obj kvs => !kvs.isEmpty

/-- Truthiness of `dict.get`, whose default result `None` is falsy. -/
def truthyOpt : Option Json → Bool
  | none => false
  | some v => truthy v

/-- Python `dict` lookup on the association list produced by the JSON parser:
a later duplicate key shadows an earlier one, as in a Python dict built by
insertion. -/
def dictGet (kvs : List (String × Json)) (k : String) : Option Json :=
  kvs.foldl (fun acc kv => if kv.1 = k then some kv.2 else acc) none

/-- Lookup of a key on an arbitrary JSON value, as `f.get(k)` behaves on a
dict (non-dict values have no `get`, handled separately where it matters). -/
def jsonGet (j : Json) (k : String) : Option Json :=
  match j with
  | Json.obj kvs => dictGet kvs k
  | _ => none

/-- Python `f[k]` subscription: a missing key raises `KeyError(k)`, whose
`str()` is the key wrapped in single quotes; subscribing a non-dict raises a
`TypeError`. The error strings model `str(e)` of the raised exception. -/
def getItem (k : String) (f : Json) : Except String Json :=
  match jsonGet f k with
  | some v => Except.ok v
  | none =>
    match f with
    | Json.obj _ => Except.error ("\x27" ++ k ++ "\x27")
    | _ => Except.error "TypeError: indices must be integers"

/-- Evaluation of a Python list comprehension `[g f for f in l]` where `g`
may raise: the first raising element aborts the whole comprehension. -/
def exMap {α β : Type} (g : α → Except String β) : List α → Except String (List β)
  | [] => Except.ok []
  | x :: xs =>
    match g x with
    | Except.error e => Except.error e
    | Except.ok b =>
      match exMap g xs with
      | Except.error e => Except.error e
      | Except.ok bs => Except.ok (b :: bs)

mutual

/-- Python `repr` of a JSON value (the form `str()` uses for elements nested
inside containers).  String quoting is approximated with single quotes. -/
def pyRepr : Json → String
  | Json.null => "None"
  | Json.bool true => "True"
  | Json.bool false => "False"
  | Json.num _ lex => lex
  | Json.str s => "\x27" ++ s ++ "\x27"
  | Json.arr xs => "[" ++ pyReprList xs ++ "]"
  | Json.obj kvs => "\x7b" ++ pyReprEntries kvs ++ "\x7d"

/-- Comma-joined `repr`s of list elements. -/
def pyReprList : List Json → String
  | [] => ""
  | [x] => pyRepr x
  | x :: xs => pyRepr x ++ ", " ++ pyReprList xs

/-- Comma-joined `repr`s of dict entries. -/
def pyReprEntries : List (String × Json) → String
  | [] => ""
  | [kv] => "\x27" ++ kv.1 ++ "\x27: " ++ pyRepr kv.2
  | kv :: kvs => "\x27" ++ kv.1 ++ "\x27: " ++ pyRepr kv.2 ++ ", " ++ pyReprEntries kvs

end

/-- Python `str()` as used by the f-string interpolation at analyze.py line
131: a string interpolates as itself, containers via their `repr`. -/
def pyStr : Json → String
  | Json.str s => s
  | j => pyRepr j

/-- The structured verdict record built throughout `analyze.py`
(`safe`/`detected_food`/`message`/`details`). `detected_food` is `None` on
the error paths, a category-id string from the mock classifier, and a Python
list of the flagged items' `name` values on the model-backed path. -/
inductive Detected where
  | none_
  | strv (s : String)
  | jlist (xs : List Json)
deriving DecidableEq

/-- The dictionary returned by `analyze_image_mock` and `call_gemini_api`. -/
structure AssessmentResult where
  safe : Bool
  detected_food : Detected
  message : String
  details : String
deriving DecidableEq

/-- The three response shapes `analyze_food` produces: 200 with
`\x7b'success': True, 'result': r\x7d`, 400 with an error message, and the
catch-all 500 with an error message. -/
inductive HttpResponse where
  | ok (success : Bool) (result : AssessmentResult)
  | badRequest (error : String)
  | serverError (error : String)
deriving DecidableEq

/-- HTTP status code of each response shape. -/
def HttpResponse.status : HttpResponse → Nat
  | HttpResponse.ok _ _ => 200
  | HttpResponse.badRequest _ => 400
  | HttpResponse.serverError _ => 500

/-- One entry of the `AVOID_FOODS` table (a hazard category). -/
structure Hazard where
  id : String
  keywords : List String
  message : String
  details : String
deriving DecidableEq

/-- The static catalog of foods to avoid during pregnancy, in the insertion
order of the Python dict at analyze.py lines 12-38. -/
def AVOID_FOODS : List Hazard :=
  [ ⟨"raw_fish",
      ["刺身", "さしみ", "sashimi", "生魚", "寿司", "sushi", "マグロ", "サーモン"],
      "生魚が含まれており、妊娠中は避けることをお勧めします",
      "生魚にはリステリア菌や寄生虫のリスクがあります。詳しくは医師にご相談ください"⟩,
    ⟨"raw_meat",
      ["ユッケ", "レアステーキ", "生ハム", "生肉"],
      "生肉が含まれており、妊娠中は避けることをお勧めします",
      "トキソプラズマやリステリア菌のリスクがあります。詳しくは医師にご相談ください"⟩,
    ⟨"raw_egg",
      ["生卵", "半熟卵", "カルボナーラ"],
      "生卵が含まれており、妊娠中は注意が必要です",
      "サルモネラ菌のリスクがあります。詳しくは医師にご相談ください"⟩,
    ⟨"soft_cheese",
      ["ナチュラルチーズ", "カマンベール", "ブルーチーズ"],
      "ナチュラルチーズが含まれており、妊娠中は避けることをお勧めします",
      "リステリア菌のリスクがあります。詳しくは医師にご相談ください"⟩,
    ⟨"alcohol",
      ["アルコール", "ワイン", "ビール", "日本酒", "焼酎"],
      "アルコールが含まれており、妊娠中は摂取を避けてください",
      "胎児の発育に影響を与える可能性があります。詳しくは医師にご相談ください"⟩ ]

/-- The mock classifier `analyze_image_mock` (analyze.py lines 40-64).  Its
two random draws are passed in explicitly: `detect` is the outcome of
`random.random() < 0.3` and `choice` the index drawn by `random.choice` over
the five catalog keys. -/
def analyze_image_mock (detect : Bool) (choice : Fin 5) : AssessmentResult :=
  if detect then
    let h := AVOID_FOODS.get ⟨choice.val, Nat.lt_of_lt_of_eq choice.isLt rfl⟩
    ⟨false, Detected.strv h.id, h.message, h.details⟩
  else
    ⟨true, Detected.strv "safe_food",
      "この食事は妊娠中でも安心してお召し上がりいただけます", ""⟩

/-- Python `str.split(sep)` for a one-character separator: splits at every
occurrence and keeps empty segments. -/
def pySplit (sep : Char) : List Char → List (List Char)
  | [] => [[]]
  | c :: rest =>
    match pySplit sep rest with
    | [] => [[]]
    | h :: t => if c = sep then [] :: h :: t else (c :: h) :: t

/-- The base64-payload extraction at analyze.py lines 78-81: when the string
contains a comma the code takes `image_data.split(',')[1]`, otherwise the
whole string.  The index is in range whenever a comma is present, so the
default of `getD` is never used then. -/
def stripB64 (cs : List Char) : List Char :=
  if ',' ∈ cs then (pySplit ',' cs).getD 1 [] else cs

/-- Characters of the standard base64 alphabet. -/
def isB64Char (c : Char) : Bool :=
  (decide (65 ≤ c.toNat) && decide (c.toNat ≤ 90))
    || (decide (97 ≤ c.toNat) && decide (c.toNat ≤ 122))
    || c.isDigit || c == '+' || c == '/'

/-- Validity model of Python `base64.b64decode` with `validate=False`:
characters outside the alphabet are discarded, then the remaining length
must be a multiple of four, else `binascii.Error` is raised (padding-position
subtleties around misplaced `=` are elided).  Only validity matters to the
caller, so no bytes are produced. -/
def b64decode (cs : List Char) : Except String Unit :=
  let n := (cs.filter (fun c => isB64Char c || c = '=')).length
  if n % 4 = 0 then Except.ok ()
  else if n % 4 = 1 then
    Except.error "Invalid base64-encoded string: number of data characters cannot be 1 more than a multiple of 4"
  else Except.error "Incorrect padding"

/-- The JSON-block extraction at analyze.py line 102: the regex
`re.search` of a brace, a greedy `[\s\S]*` and a closing brace matches from
the first opening brace to the last closing brace after it, with no balance
check.  `none` models a failed search. -/
def extractJson (cs : List Char) : Option (List Char) :=
  match cs.dropWhile (fun c => c ≠ '{') with
  | [] => none
  | c :: t =>
    match t.reverse.dropWhile (fun c => c ≠ '}') with
    | [] => none
    | r0 :: rt => some (c :: (r0 :: rt).reverse)

/-- Balanced-brace scanner: consumes characters, tracking nesting depth,
until the brace opened at depth one is closed. -/
def goBal : List Char → Nat → List Char → Option (List Char)
  | [], _, _ => none
  | c :: rest, d, acc =>
    if c = '}' then
      if d = 1 then some (('}' :: acc).reverse)
      else goBal rest (d - 1) ('}' :: acc)
    else if c = '{' then goBal rest (d + 1) ('{' :: acc)
    else goBal rest d (c :: acc)

/-- Modelled from the spec: the "first balanced outermost brace-to-brace
greedy match" that section 4.4 step 1 claims the extraction performs.  Used
only to compare the claimed behaviour with `extractJson`, the behaviour of
the source. -/
def extractJsonSpec (cs : List Char) : Option (List Char) :=
  match cs.dropWhile (fun c => c ≠ '{') with
  | [] => none
  | c :: t => goBal t 1 [c]

/-- JSON whitespace, as accepted by Python `json.loads`. -/
def jsonWs (c : Char) : Bool := c == ' ' || c == '\t' || c == '\n' || c == '\r'

/-- Skip leading JSON whitespace. -/
def skipWs (cs : List Char) : List Char := cs.dropWhile jsonWs

/-- Hexadecimal digit value. -/
def hexVal (c : Char) : Option Nat :=
  if c.isDigit then some (c.toNat - 48)
  else if 97 ≤ c.toNat ∧ c.toNat ≤ 102 then some (c.toNat - 87)
  else if 65 ≤ c.toNat ∧ c.toNat ≤ 70 then some (c.toNat - 55)
  else none

/-- Body of a JSON string after the opening quote: ordinary characters, the
standard escapes and `\uXXXX` (surrogate pairing elided), raw control
characters rejected as in Python.  `acc` holds the decoded characters in
reverse.  The fuel is instantiated above the input length, so the 0 arm is
unreachable. -/
def parseStringBody : Nat → List Char → List Char → Except String (String × List Char)
  | 0, _, _ => Except.error "Unterminated string"
  | _ + 1, _, [] => Except.error "Unterminated string"
  | n + 1, acc, c :: rest =>
    if c = '"' then Except.ok (acc.reverse.asString, rest)
    else if c = '\\' then
      match rest with
      | [] => Except.error "Unterminated string"
      | e :: rest2 =>
        if e = '"' then parseStringBody n ('"' :: acc) rest2
        else if e = '\\' then parseStringBody n ('\\' :: acc) rest2
        else if e = '/' then parseStringBody n ('/' :: acc) rest2
        else if e = 'b' then parseStringBody n ('\x08' :: acc) rest2
        else if e = 'f' then parseStringBody n ('\x0c' :: acc) rest2
        else if e = 'n' then parseStringBody n ('\n' :: acc) rest2
        else if e = 'r' then parseStringBody n ('\r' :: acc) rest2
        else if e = 't' then parseStringBody n ('\t' :: acc) rest2
        else if e = 'u' then
          match rest2 with
          | a :: b :: c2 :: d :: rest3 =>
            match hexVal a, hexVal b, hexVal c2, hexVal d with
            | some va, some vb, some vc, some vd =>
              parseStringBody n (Char.ofNat (va * 4096 + vb * 256 + vc * 16 + vd) :: acc) rest3
            | _, _, _, _ => Except.error "Invalid uXXXX escape"
          | _ => Except.error "Invalid uXXXX escape"
        else Except.error "Invalid escape"
    else if c.toNat < 32 then Except.error "Invalid control character"
    else parseStringBody n (c :: acc) rest

/-- Optional fraction part of a JSON number: a dot followed by at least one
digit, else nothing is consumed. -/
def parseFracPart (cs : List Char) : List Char × List Char :=
  match cs with
  | '.' :: rest =>
    let ds := rest.takeWhile Char.isDigit
    if ds.isEmpty then ([], cs) else ('.' :: ds, rest.dropWhile Char.isDigit)
  | _ => ([], cs)

/-- Optional exponent part of a JSON number. -/
def parseExpPart (cs : List Char) : List Char × List Char :=
  match cs with
  | c :: rest =>
    if c = 'e' ∨ c = 'E' then
      match rest with
      | s :: rest2 =>
        if s = '+' ∨ s = '-' then
          let ds := rest2.takeWhile Char.isDigit
          if ds.isEmpty then ([], cs)
          else (c :: s :: ds, rest2.dropWhile Char.isDigit)
        else
          let ds := rest.takeWhile Char.isDigit
          if ds.isEmpty then ([], cs)
          else (c :: ds, rest.dropWhile Char.isDigit)
      | [] => ([], cs)
    else ([], cs)
  | [] => ([], cs)

/-- A JSON number per Python's grammar: optional minus, an integer part that
is `0` or starts with a nonzero digit, optional fraction and exponent.  The
value records whether the number is zero and its lexeme. -/
def parseNumber (cs : List Char) : Except String (Json × List Char) :=
  let neg : List Char := if cs.head? = some '-' then ['-'] else []
  let cs1 := if cs.head? = some '-' then cs.drop 1 else cs
  match cs1 with
  | '0' :: rest =>
    let fr := parseFracPart rest
    let ex := parseExpPart fr.2
    Except.ok (Json.num (fr.1.all (fun d => d == '0' || d == '.'))
      ((neg ++ '0' :: (fr.1 ++ ex.1)).asString), ex.2)
  | c :: _ =>
    if c.isDigit then
      let ds := cs1.takeWhile Char.isDigit
      let rest1 := cs1.dropWhile Char.isDigit
      let fr := parseFracPart rest1
      let ex := parseExpPart fr.2
      let zero := ds.all (fun d => d == '0') && fr.1.all (fun d => d == '0' || d == '.')
      Except.ok (Json.num zero ((neg ++ ds ++ fr.1 ++ ex.1).asString), ex.2)
    else Except.error "Expecting value"
  | [] => Except.error "Expecting value"

/-- Members of a JSON object after the opening brace (when the object is not
empty): `pv` parses one value; the fuel bounds the number of members and is
instantiated above the input length. -/
def parseMembersAux (pv : List Char → Except String (Json × List Char)) :
    Nat → List Char → List (String × Json) →
      Except String (List (String × Json) × List Char)
  | 0, _, _ => Except.error "Expecting property name enclosed in double quotes"
  | n + 1, cs, acc =>
    match cs with
    | '"' :: rest =>
      match parseStringBody (rest.length + 1) [] rest with
      | Except.error e => Except.error e
      | Except.ok kr =>
        match skipWs kr.2 with
        | ':' :: r2 =>
          match pv (skipWs r2) with
          | Except.error e => Except.error e
          | Except.ok vr =>
            match skipWs vr.2 with
            | ',' :: r4 => parseMembersAux pv n (skipWs r4) ((kr.1, vr.1) :: acc)
            | '}' :: r4 => Except.ok (((kr.1, vr.1) :: acc).reverse, r4)
            | _ => Except.error "Expecting comma delimiter"
        | _ => Except.error "Expecting colon delimiter"
    | _ => Except.error "Expecting property name enclosed in double quotes"

/-- Elements of a JSON array after the opening bracket (when the array is
not empty). -/
def parseElemsAux (pv : List Char → Except String (Json × List Char)) :
    Nat → List Char → List Json → Except String (List Json × List Char)
  | 0, _, _ => Except.error "Expecting value"
  | n + 1, cs, acc =>
    match pv cs with
    | Except.error e => Except.error e
    | Except.ok vr =>
      match skipWs vr.2 with
      | ',' :: r2 => parseElemsAux pv n (skipWs r2) (vr.1 :: acc)
      | ']' :: r2 => Except.ok ((vr.1 :: acc).reverse, r2)
      | _ => Except.error "Expecting comma delimiter"

/-- One JSON value (whitespace already skipped).  The fuel bounds nesting
depth and is instantiated above the input length. -/
def parseValue : Nat → List Char → Except String (Json × List Char)
  | 0, _ => Except.error "Expecting value"
  | n + 1, cs =>
    match cs with
    | [] => Except.error "Expecting value"
    | '"' :: rest =>
      match parseStringBody (rest.length + 1) [] rest with
      | Except.error e => Except.error e
      | Except.ok sr => Except.ok (Json.str sr.1, sr.2)
    | '{' :: rest =>
      match skipWs rest with
      | '}' :: r => Except.ok (Json.obj [], r)
      | r =>
        match parseMembersAux (fun x => parseValue n x) (r.length + 1) r [] with
        | Except.error e => Except.error e
        | Except.ok mr => Except.ok (Json.obj mr.1, mr.2)
    | '[' :: rest =>
      match skipWs rest with
      | ']' :: r => Except.ok (Json.arr [], r)
      | r =>
        match parseElemsAux (fun x => parseValue n x) (r.length + 1) r [] with
        | Except.error e => Except.error e
        | Except.ok er => Except.ok (Json.arr er.1, er.2)
    | 't' :: rest =>
      if "rue".data.isPrefixOf rest then Except.ok (Json.bool true, rest.drop 3)
      else Except.error "Expecting value"
    | 'f' :: rest =>
      if "alse".data.isPrefixOf rest then Except.ok (Json.bool false, rest.drop 4)
      else Except.error "Expecting value"
    | 'n' :: rest =>
      if "ull".data.isPrefixOf rest then Except.ok (Json.null, rest.drop 3)
      else Except.error "Expecting value"
    | c :: _ =>
      if c = '-' ∨ c.isDigit then parseNumber cs
      else Except.error "Expecting value"

/-- Python `json.loads` on a character list: skip surrounding whitespace,
parse one value, and require that nothing but whitespace remains.  Error
strings name the cause as Python's `JSONDecodeError` messages do (without
positions). -/
def json_loads (cs : List Char) : Except String Json :=
  match parseValue (cs.length + 1) (skipWs cs) with
  | Except.error e => Except.error e
  | Except.ok vr =>
    if (skipWs vr.2).isEmpty then Except.ok vr.1 else Except.error "Extra data"

/-- Python `'\n'.join` on character lists. -/
def joinChars : List (List Char) → List Char
  | [] => []
  | [l] => l
  | l :: ls => l ++ '\n' :: joinChars ls

/-- The f-string at analyze.py line 131 for one flagged item: `f['name']`,
a colon and a space, then `f['details']`; either subscription may raise
`KeyError`. -/
def detailLine (f : Json) : Except String (List Char) :=
  match getItem "name" f with
  | Except.error e => Except.error e
  | Except.ok n =>
    match getItem "details" f with
    | Except.error e => Except.error e
    | Except.ok d => Except.ok ((pyStr n).data ++ ':' :: ' ' :: (pyStr d).data)

/-- The filter `f.get('risk')` applied to one candidate item. -/
def itemRisky (f : Json) : Bool := truthyOpt (jsonGet f "risk")

/-- The list comprehension at analyze.py line 122 over the elements of the
`foods` list: keeps items with a truthy `risk`; a non-dict element raises
(`.get` is not defined on it). -/
def riskFilter : List Json → Except String (List Json)
  | [] => Except.ok []
  | f :: fs =>
    match f with
    | Json.obj _ =>
      match riskFilter fs with
      | Except.error e => Except.error e
      | Except.ok rest => Except.ok (if itemRisky f then f :: rest else rest)
    | _ => Except.error "AttributeError: object has no attribute get"

/-- Iterating `foods` in the comprehension: a list iterates its elements,
a string its characters and a dict its keys (characters and string keys
raise on `.get` unless the iterable is empty), anything else is not
iterable. -/
def getRisky : Json → Except String (List Json)
  | Json.arr xs => riskFilter xs
  | Json.str s =>
    if s.data.isEmpty then Except.ok []
    else Except.error "AttributeError: object has no attribute get"
  | Json.obj kvs =>
    if kvs.isEmpty then Except.ok []
    else Except.error "AttributeError: object has no attribute get"
  | _ => Except.error "TypeError: object is not iterable"

/-- Lines 113-137 of analyze.py applied to the successfully parsed JSON
dict: read `foods` (defaulting to an empty list), filter to risky items,
and build the safe or unsafe verdict.  An `Except.error` models a Python
exception escaping to the handler at line 138. -/
def interpretFoods (kvs : List (String × Json)) : Except String AssessmentResult :=
  match getRisky ((dictGet kvs "foods").getD (Json.arr [])) with
  | Except.error e => Except.error e
  | Except.ok risky =>
    if risky.isEmpty then
      Except.ok ⟨true, Detected.jlist [],
        "この食事は妊娠中でも安心してお召し上がりいただけます", ""⟩
    else
      match exMap (getItem "name") risky with
      | Except.error e => Except.error e
      | Except.ok names =>
        match exMap detailLine risky with
        | Except.error e => Except.error e
        | Except.ok lines =>
          Except.ok ⟨false, Detected.jlist names,
            "リスクがある食品が含まれています。詳細をご確認ください。",
            (joinChars lines).asString⟩

/-- Interpretation of the model's textual reply (analyze.py lines 99-137):
extract the JSON block, parse it (the parse error is caught by the inner
`except` together with failures of the `.get` on a non-dict result), then
aggregate the verdict. -/
def interpretReply (text : String) : Except String AssessmentResult :=
  match extractJson text.data with
  | none =>
    Except.ok ⟨false, Detected.none_,
      "GeminiのレスポンスからJSONを抽出できませんでした", text⟩
  | some fj =>
    match json_loads fj with
    | Except.error e =>
      Except.ok ⟨false, Detected.none_, "GeminiのJSONパースエラー: " ++ e, fj.asString⟩
    | Except.ok (Json.obj kvs) => interpretFoods kvs
    | Except.ok _ =>
      Except.ok ⟨false, Detected.none_,
        "GeminiのJSONパースエラー: AttributeError: object has no attribute get",
        fj.asString⟩

/-- `call_gemini_api` (analyze.py lines 66-144).  The external model is an
oracle: `Except.ok text` is a reply, `Except.error e` a transport/API
exception raised by the call.  The function's own `Except.error` result
models an exception escaping `call_gemini_api` itself, which only the
base64 decode at line 83 can produce, it being outside the `try`. -/
def call_gemini_api (apiKey : Option String) (oracle : Except String String)
    (image_data : String) : Except String AssessmentResult :=
  match apiKey with
  | none =>
    Except.ok ⟨false, Detected.none_, "Gemini APIキーが設定されていません", ""⟩
  | some _ =>
    match b64decode (stripB64 image_data.data) with
    | Except.error e => Except.error e
    | Except.ok _ =>
      match oracle with
      | Except.error e =>
        Except.ok ⟨false, Detected.none_, "Gemini API呼び出しエラー: " ++ e, ""⟩
      | Except.ok text =>
        match interpretReply text with
        | Except.ok r => Except.ok r
        | Except.error e =>
          Except.ok ⟨false, Detected.none_, "Gemini API呼び出しエラー: " ++ e, ""⟩

/-- Python dict lookup on the request body's string fields (later duplicate
keys shadow earlier ones). -/
def pyDictGet (data : List (String × String)) (k : String) : Option String :=
  data.foldl (fun acc kv => if kv.1 = k then some kv.2 else acc) none

/-- The `/analyze` endpoint `analyze_food` (analyze.py lines 146-179).
`body` is what `request.get_json()` returned (`none` when there was no JSON
body).  The endpoint's catch-all `except` converts the only exception its
body can raise, the decode error escaping `call_gemini_api`, into a 500
response. -/
def analyze_food (apiKey : Option String) (oracle : Except String String)
    (body : Option (List (String × String))) : HttpResponse :=
  match body with
  | none => HttpResponse.badRequest "画像データが提供されていません"
  | some data =>
    if data.isEmpty then HttpResponse.badRequest "画像データが提供されていません"
    else
      match pyDictGet data "image" with
      | none => HttpResponse.badRequest "画像データが提供されていません"
      | some image_data =>
        if "data:image/".data.isPrefixOf image_data.data then
          match call_gemini_api apiKey oracle image_data with
          | Except.ok r => HttpResponse.ok true r
          | Except.error e =>
            HttpResponse.serverError ("分析中にエラーが発生しました: " ++ e)
        else HttpResponse.badRequest "無効な画像形式です"

/-- The spec reading of a `detected_food` value that denotes no hazard: the
fallback classifier's `"safe_food"` marker or the model-backed path's empty
list.  `None` (the error paths) denotes that the assessment could not be
performed, not the absence of a hazard. -/
def noHazard (d : Detected) : Prop :=
  d = Detected.strv "safe_food" ∨ d = Detected.jlist []

/-- The invariant of section 3 of the spec: `safe` is true exactly when
`detected_food` denotes no hazard and `details` is empty. -/
def resultInv (r : AssessmentResult) : Prop :=
  r.safe = true ↔ (noHazard r.detected_food ∧ r.details = "")

instance (d : Detected) : Decidable (noHazard d) := by
  unfold noHazard
  infer_instance

instance (r : AssessmentResult) : Decidable (resultInv r) := by
  unfold resultInv
  infer_instance

theorem exMap_cons_ok {α β : Type} {g : α → Except String β} {x : α} {xs : List α}
    {ys : List β} (h : exMap g (x :: xs) = Except.ok ys) :
    ∃ y ts, g x = Except.ok y ∧ exMap g xs = Except.ok ts ∧ ys = y :: ts := by
  unfold exMap at h
  cases hg : g x with
  | error e => rw [hg] at h; cases h
  | ok y =>
    rw [hg] at h
    cases ht : exMap g xs with
    | error e => rw [ht] at h; cases h
    | ok ts =>
      rw [ht] at h
      injection h with hh
      exact ⟨y, ts, rfl, rfl, hh.symm⟩

theorem exMap_ok_of_forall {α β : Type} {g : α → Except String β} {h : α → β} :
    ∀ {l : List α}, (∀ x ∈ l, g x = Except.ok (h x)) →
      exMap g l = Except.ok (l.map h) := by
  intro l
  induction l with
  | nil => intro _; rfl
  | cons x xs ih =>
    intro hall
    have hx := hall x (by simp)
    have ht := ih (fun z hz => hall z (by simp [hz]))
    simp [exMap, hx, ht]

theorem exMap_ok_mem {α β : Type} {g : α → Except String β} :
    ∀ {l : List α} {bs : List β}, exMap g l = Except.ok bs →
      ∀ x ∈ l, ∃ b, g x = Except.ok b := by
  intro l
  induction l with
  | nil => intro bs _ x hx; cases hx
  | cons y ys ih =>
    intro bs h x hx
    unfold exMap at h
    cases hg : g y with
    | error e => rw [hg] at h; cases h
    | ok b =>
      rw [hg] at h
      cases ht : exMap g ys with
      | error e => rw [ht] at h; cases h
      | ok ts =>
        rcases List.mem_cons.mp hx with h1 | h2
        · exact ⟨b, h1 ▸ hg⟩
        · exact ih ht x h2

theorem exMap_error_of_mem {α β : Type} {g : α → Except String β} :
    ∀ {l : List α} {x : α} {e : String}, x ∈ l → g x = Except.error e →
      ∃ e2, exMap g l = Except.error e2 := by
  intro l
  induction l with
  | nil => intro x e hx; intro _; cases hx
  | cons y ys ih =>
    intro x e hx hge
    rcases List.mem_cons.mp hx with h1 | h2
    · subst h1; exact ⟨e, by simp [exMap, hge]⟩
    · cases hg : g y with
      | error e3 => exact ⟨e3, by simp [exMap, hg]⟩
      | ok b =>
        obtain ⟨e2, he2⟩ := ih h2 hge
        exact ⟨e2, by simp [exMap, hg, he2]⟩

theorem getRisky_filter : ∀ (xs : List Json), (∀ x ∈ xs, ∃ kv, x = Json.obj kv) →
    getRisky (Json.arr xs) = Except.ok (xs.filter itemRisky) := by
  intro xs
  induction xs with
  | nil => intro _; rfl
  | cons f fs ih =>
    intro hobj
    obtain ⟨kv, hkv⟩ := hobj f (by simp)
    have ht : riskFilter fs = Except.ok (fs.filter itemRisky) :=
      ih (fun x hx => hobj x (by simp [hx]))
    subst hkv
    show riskFilter (Json.obj kv :: fs) = _
    by_cases hr : itemRisky (Json.obj kv) <;>
      simp [riskFilter, ht, List.filter_cons, hr]

theorem detailLine_shape {f : Json} {l : List Char} (h : detailLine f = Except.ok l) :
    ∃ a b, l = a ++ ':' :: ' ' :: b := by
  unfold detailLine at h
  cases h1 : getItem "name" f with
  | error e => rw [h1] at h; cases h
  | ok n =>
    rw [h1] at h
    cases h2 : getItem "details" f with
    | error e => rw [h2] at h; cases h
    | ok d =>
      rw [h2] at h
      injection h with hh
      exact ⟨(pyStr n).data, (pyStr d).data, hh.symm⟩

theorem joinChars_cons_ne_nil {l : List Char} {ls : List (List Char)} {a b : List Char}
    (hl : l = a ++ ':' :: ' ' :: b) : joinChars (l :: ls) ≠ [] := by
  cases ls with
  | nil => simp [joinChars, hl]
  | cons l2 ls2 => simp [joinChars]

theorem asString_ne_empty {l : List Char} (h : l ≠ []) : l.asString ≠ "" := by
  intro hh
  apply h
  have := congrArg String.data hh
  simpa [List.asString] using this

theorem interpretFoods_inv {kvs : List (String × Json)} {r : AssessmentResult}
    (h : interpretFoods kvs = Except.ok r) : resultInv r := by
  unfold interpretFoods at h
  split at h
  · cases h
  · rename_i risky hg
    split at h
    · injection h with hh
      rw [← hh]
      decide
    · rename_i hre
      split at h
      · cases h
      · rename_i names hn
        split at h
        · cases h
        · rename_i lines hl
          injection h with hh
          cases hrisky : risky with
          | nil => rw [hrisky] at hre; simp at hre
          | cons f fs =>
            rw [hrisky] at hl
            obtain ⟨l0, ts, hdl, _, hlines⟩ := exMap_cons_ok hl
            obtain ⟨a, b, hab⟩ := detailLine_shape hdl
            have hne : joinChars lines ≠ [] := by
              rw [hlines]; exact joinChars_cons_ne_nil hab
            have hds : (joinChars lines).asString ≠ "" := asString_ne_empty hne
            rw [← hh]
            simp [resultInv, noHazard, hds]

theorem interpretReply_inv {text : String} {r : AssessmentResult}
    (h : interpretReply text = Except.ok r) : resultInv r := by
  unfold interpretReply at h
  split at h
  · injection h with hh
    rw [← hh]
    simp [resultInv, noHazard]
  · split at h
    · injection h with hh
      rw [← hh]
      simp [resultInv, noHazard]
    · exact interpretFoods_inv h
    · injection h with hh
      rw [← hh]
      simp [resultInv, noHazard]

theorem pySplit_ne_nil (sep : Char) : ∀ cs : List Char, pySplit sep cs ≠ [] := by
  intro cs
  induction cs with
  | nil => simp [pySplit]
  | cons c rest ih =>
    cases h : pySplit sep rest with
    | nil => exact absurd h ih
    | cons hd tl =>
      simp only [pySplit, h]
      split <;> simp

theorem pySplit_head (sep : Char) :
    ∀ cs : List Char, ∃ t, pySplit sep cs = (cs.takeWhile (fun x => x ≠ sep)) :: t := by
  intro cs
  induction cs with
  | nil => exact ⟨[], rfl⟩
  | cons c rest ih =>
    obtain ⟨t, ht⟩ := ih
    by_cases hc : c = sep
    · subst hc
      refine ⟨(rest.takeWhile (fun x => x ≠ c)) :: t, ?_⟩
      simp [pySplit, ht, List.takeWhile_cons]
    · refine ⟨t, ?_⟩
      simp [pySplit, ht, List.takeWhile_cons, hc]

theorem pySplit_append (sep : Char) :
    ∀ (a b : List Char), sep ∉ a →
      pySplit sep (a ++ sep :: b) = a :: pySplit sep b := by
  intro a
  induction a with
  | nil =>
    intro b _
    cases h : pySplit sep b with
    | nil => exact absurd h (pySplit_ne_nil sep b)
    | cons hd tl => simp [pySplit, h]
  | cons c a2 ih =>
    intro b hs
    have hc : c ≠ sep := by
      intro hh
      exact hs (by simp [hh])
    have ht := ih b (fun hh => hs (by simp [hh]))
    simp [pySplit, ht, hc]

theorem dropWhile_head_false {α : Type} {p : α → Bool} :
    ∀ {l : List α} {c : α} {t : List α}, List.dropWhile p l = c :: t → p c = false := by
  intro l
  induction l with
  | nil => intro c t h; cases h
  | cons x xs ih =>
    intro c t h
    rw [List.dropWhile_cons] at h
    by_cases hx : p x = true
    · rw [if_pos hx] at h
      exact ih h
    · rw [if_neg hx] at h
      cases h
      simpa using hx

theorem extractJson_span {cs m : List Char} (h : extractJson cs = some m) :
    ∃ pre post, cs = pre ++ m ++ post ∧ '{' ∉ pre ∧ '}' ∉ post ∧
      m.head? = some '{' ∧ m.getLast? = some '}' := by
  unfold extractJson at h
  split at h
  · cases h
  · rename_i c t hd
    split at h
    · cases h
    · rename_i r0 rt hr
      injection h with hm
      have hc : c = '{' := by
        have := dropWhile_head_false hd
        simpa using this
      have hr0 : r0 = '}' := by
        have := dropWhile_head_false hr
        simpa using this
      obtain ⟨pre, hpre1, hpre2⟩ :
          ∃ pre, pre ++ (c :: t) = cs ∧ ∀ x ∈ pre, x ≠ '{' := by
        refine ⟨cs.takeWhile (fun x => x ≠ '{'), ?_, ?_⟩
        · rw [← hd]; exact List.takeWhile_append_dropWhile _ _
        · intro x hx
          have := List.mem_takeWhile_imp hx
          simpa using this
      obtain ⟨post, hpost1, hpost2⟩ :
          ∃ post, t = (r0 :: rt).reverse ++ post ∧ ∀ x ∈ post, x ≠ '}' := by
        refine ⟨(t.reverse.takeWhile (fun x => x ≠ '}')).reverse, ?_, ?_⟩
        · have h2 : t.reverse.takeWhile (fun x => x ≠ '}') ++ (r0 :: rt) = t.reverse := by
            rw [← hr]; exact List.takeWhile_append_dropWhile _ _
          have := congrArg List.reverse h2
          simpa using this.symm
        · intro x hx
          rw [List.mem_reverse] at hx
          have := List.mem_takeWhile_imp hx
          simpa using this
      refine ⟨pre, post, ?_, ?_, ?_, ?_, ?_⟩
      · rw [← hm, ← hpre1, hpost1]
        simp
      · intro hmem
        exact hpre2 '{' hmem rfl
      · intro hmem
        exact hpost2 '}' hmem rfl
      · rw [← hm, hc]; rfl
      · rw [← hm, hc, hr0]
        show (('{' :: (('}' :: rt).reverse))).getLast? = some '}'
        rw [List.reverse_cons]
        rw [show '{' :: (rt.reverse ++ ['}']) = ('{' :: rt.reverse) ++ ['}'] from rfl]
        exact List.getLast?_concat _

/-- C1, counterexample.  The claim says a base64 payload that fails to
decode makes `call_gemini_api` return a structured `AssessmentResult`; in
the code the decode at line 83 sits outside the `try`, so on the concrete
payload `AAA` (length 3, not a multiple of 4) the `binascii` exception
escapes `call_gemini_api` and no `AssessmentResult` is returned. -/
theorem C1_counterexample :
    b64decode (stripB64 ("data:image/png;base64,AAA").data)
      = Except.error "Incorrect padding"
    ∧ call_gemini_api (some "k") (Except.ok "") "data:image/png;base64,AAA"
        = Except.error "Incorrect padding"
    ∧ ∀ r : AssessmentResult,
        call_gemini_api (some "k") (Except.ok "") "data:image/png;base64,AAA"
          ≠ Except.ok r := by
  have hcall : call_gemini_api (some "k") (Except.ok "") "data:image/png;base64,AAA"
      = Except.error "Incorrect padding" := by decide
  refine ⟨by decide, hcall, ?_⟩
  intro r h
  rw [hcall] at h
  exact Except.noConfusion h

/-- C1, amended.  When the base64 payload fails to decode, the exception
escapes `call_gemini_api` (no structured result is produced there) and is
converted by the endpoint's catch-all into a 500 error response naming the
decode error. -/
theorem C1_decode_failure_escapes (key : String) (oracle : Except String String)
    (data : List (String × String)) (img e : String)
    (hi : pyDictGet data "image" = some img)
    (hp : "data:image/".data.isPrefixOf img.data = true)
    (hd : b64decode (stripB64 img.data) = Except.error e) :
    call_gemini_api (some key) oracle img = Except.error e
    ∧ analyze_food (some key) oracle (some data)
        = HttpResponse.serverError ("分析中にエラーが発生しました: " ++ e) := by
  have hc : call_gemini_api (some key) oracle img = Except.error e := by
    simp [call_gemini_api, hd]
  refine ⟨hc, ?_⟩
  cases data with
  | nil => simp [pyDictGet] at hi
  | cons hd2 tl => simp [analyze_food, hi, hp, hc]

/-- C1 witness: the amended theorem applied at the concrete payload `AAA`
with a configured key. -/
theorem C1_decode_failure_escapes_witness :
    call_gemini_api (some "k") (Except.ok "") "data:image/png;base64,AAA"
      = Except.error "Incorrect padding"
    ∧ analyze_food (some "k") (Except.ok "")
        (some [("image", "data:image/png;base64,AAA")])
      = HttpResponse.serverError ("分析中にエラーが発生しました: " ++ "Incorrect padding") :=
  C1_decode_failure_escapes "k" (Except.ok "")
    [("image", "data:image/png;base64,AAA")] "data:image/png;base64,AAA"
    "Incorrect padding" (by decide) (by decide) (by decide)

/-- C2, counterexample.  With no credential configured, the endpoint on a
valid data URI returns the credential-error result, and that result is not
the output of the fallback classifier `analyze_image_mock` under any random
draw - the code never falls back to it (the function is never called). -/
theorem C2_counterexample :
    analyze_food none (Except.ok "") (some [("image", "data:image/png;base64,AAAA")])
      = HttpResponse.ok true
          ⟨false, Detected.none_, "Gemini APIキーが設定されていません", ""⟩
    ∧ ∀ (d : Bool) (c : Fin 5),
        analyze_food none (Except.ok "") (some [("image", "data:image/png;base64,AAAA")])
          ≠ HttpResponse.ok true (analyze_image_mock d c) := by
  constructor
  · decide
  · decide

/-- C2, amended.  When no API credential is configured, processing an
`/analyze` request with a valid image field returns 200 carrying the
credential-error `AssessmentResult`, produced without calling the external
service (the oracle is arbitrary); the fallback classifier produces no such
result under any draw and is not involved. -/
theorem C2_missing_key_reports_error (oracle : Except String String)
    (data : List (String × String)) (img : String)
    (hi : pyDictGet data "image" = some img)
    (hp : "data:image/".data.isPrefixOf img.data = true) :
    analyze_food none oracle (some data)
      = HttpResponse.ok true
          ⟨false, Detected.none_, "Gemini APIキーが設定されていません", ""⟩
    ∧ ∀ (d : Bool) (c : Fin 5),
        analyze_image_mock d c
          ≠ ⟨false, Detected.none_, "Gemini APIキーが設定されていません", ""⟩ := by
  constructor
  · cases data with
    | nil => simp [pyDictGet] at hi
    | cons hd2 tl => simp [analyze_food, hi, hp, call_gemini_api]
  · decide

/-- C2 witness: the amended theorem at a concrete unavailable-service
environment (no key, erroring oracle) and a concrete valid image. -/
theorem C2_missing_key_reports_error_witness :
    analyze_food none (Except.error "service unavailable")
        (some [("image", "data:image/jpeg;base64,AAAA")])
      = HttpResponse.ok true
          ⟨false, Detected.none_, "Gemini APIキーが設定されていません", ""⟩ :=
  (C2_missing_key_reports_error (Except.error "service unavailable")
    [("image", "data:image/jpeg;base64,AAAA")] "data:image/jpeg;base64,AAAA"
    (by decide) (by decide)).1

/-- C3.  Every `AssessmentResult` the program produces - from the mock
classifier under any draws, from reply interpretation, and from
`call_gemini_api` whenever it returns a result - satisfies the invariant:
`safe` is true iff `detected_food` denotes no hazard and `details` is
empty. -/
theorem C3_safe_iff_no_hazard :
    (∀ (d : Bool) (c : Fin 5), resultInv (analyze_image_mock d c))
    ∧ (∀ (text : String) (r : AssessmentResult),
         interpretReply text = Except.ok r → resultInv r)
    ∧ (∀ (key : Option String) (oracle : Except String String) (img : String)
         (r : AssessmentResult),
         call_gemini_api key oracle img = Except.ok r → resultInv r) := by
  refine ⟨by decide, fun text r h => interpretReply_inv h, ?_⟩
  intro key oracle img r h
  unfold call_gemini_api at h
  split at h
  · injection h with hh
    rw [← hh]
    decide
  · split at h
    · cases h
    · split at h
      · injection h with hh
        rw [← hh]
        simp [resultInv, noHazard]
      · split at h
        · rename_i r2 hIR
          injection h with hh
          rw [← hh]
          exact interpretReply_inv hIR
        · injection h with hh
          rw [← hh]
          simp [resultInv, noHazard]

/-- C3 witness: the invariant holds for the credential-error result that
`call_gemini_api` returns when no key is configured. -/
theorem C3_safe_iff_no_hazard_witness :
    resultInv ⟨false, Detected.none_, "Gemini APIキーが設定されていません", ""⟩ :=
  C3_safe_iff_no_hazard.2.2 none (Except.ok "") ""
    ⟨false, Detected.none_, "Gemini APIキーが設定されていません", ""⟩ (by decide)

/-- C4, counterexample.  The claim says interpretation filters to items
whose `risk` is true; the code keeps items whose `risk` is truthy.  On a
reply whose only item has `risk: 1` - not the boolean true - the claim
predicts the safe reassurance result, but the code flags the item and
returns the unsafe verdict. -/
theorem C4_counterexample :
    json_loads (("\x7b\"foods\": [\x7b\"name\": \"a\", \"risk\": 1, \"details\": \"\"\x7d]\x7d").data)
      = Except.ok (Json.obj [("foods", Json.arr
          [Json.obj [("name", Json.str "a"), ("risk", Json.num false "1"),
            ("details", Json.str "")]])])
    ∧ (∀ f ∈ [Json.obj [("name", Json.str "a"), ("risk", Json.num false "1"),
          ("details", Json.str "")]],
        jsonGet f "risk" ≠ some (Json.bool true))
    ∧ interpretReply "\x7b\"foods\": [\x7b\"name\": \"a\", \"risk\": 1, \"details\": \"\"\x7d]\x7d"
        = Except.ok ⟨false, Detected.jlist [Json.str "a"],
            "リスクがある食品が含まれています。詳細をご確認ください。", "a: "⟩ := by
  refine ⟨by decide, by decide, by decide⟩

/-- C4, amended.  For a reply whose extracted JSON parses to an object,
interpretation reads `foods` (defaulting to an empty sequence) and filters
to items whose `risk` field is truthy; if the filtered sequence is empty the
safe reassurance result is returned, and otherwise - provided every flagged
item carries `name` and `details` keys, else an exception escapes instead -
the unsafe result with the flagged names in input order and the one-per-line
joined details. -/
theorem C4_risk_filter_behavior (text : String) (m : List Char)
    (kvs : List (String × Json)) (xs : List Json)
    (hm : extractJson text.data = some m)
    (hp : json_loads m = Except.ok (Json.obj kvs))
    (hf : (dictGet kvs "foods").getD (Json.arr []) = Json.arr xs)
    (hobj : ∀ x ∈ xs, ∃ kv, x = Json.obj kv) :
    (xs.filter itemRisky = [] →
       interpretReply text
         = Except.ok ⟨true, Detected.jlist [],
             "この食事は妊娠中でも安心してお召し上がりいただけます", ""⟩)
    ∧ (xs.filter itemRisky ≠ [] →
       (∀ f ∈ xs.filter itemRisky,
          (jsonGet f "name").isSome ∧ (jsonGet f "details").isSome) →
       interpretReply text
         = Except.ok ⟨false,
             Detected.jlist ((xs.filter itemRisky).map
               (fun f => (jsonGet f "name").getD Json.null)),
             "リスクがある食品が含まれています。詳細をご確認ください。",
             (joinChars ((xs.filter itemRisky).map
               (fun f => (pyStr ((jsonGet f "name").getD Json.null)).data
                 ++ ':' :: ' ' :: (pyStr ((jsonGet f "details").getD Json.null)).data))).asString⟩) := by
  have hR : getRisky ((dictGet kvs "foods").getD (Json.arr []))
      = Except.ok (xs.filter itemRisky) := by
    rw [hf]
    exact getRisky_filter xs hobj
  constructor
  · intro hempty
    simp [interpretReply, hm, hp, interpretFoods, hR, hempty]
  · intro hne hkeys
    have hnames : exMap (getItem "name") (xs.filter itemRisky)
        = Except.ok ((xs.filter itemRisky).map
            (fun f => (jsonGet f "name").getD Json.null)) := by
      refine exMap_ok_of_forall ?_
      intro f hfm
      have h1 := (hkeys f hfm).1
      cases hv : jsonGet f "name" with
      | none => rw [hv] at h1; cases h1
      | some v => simp [getItem, hv]
    have hlines : exMap detailLine (xs.filter itemRisky)
        = Except.ok ((xs.filter itemRisky).map
            (fun f => (pyStr ((jsonGet f "name").getD Json.null)).data
              ++ ':' :: ' ' :: (pyStr ((jsonGet f "details").getD Json.null)).data)) := by
      refine exMap_ok_of_forall ?_
      intro f hfm
      obtain ⟨h1, h2⟩ := hkeys f hfm
      cases hv : jsonGet f "name" with
      | none => rw [hv] at h1; cases h1
      | some v =>
        cases hw : jsonGet f "details" with
        | none => rw [hw] at h2; cases h2
        | some w => simp [detailLine, getItem, hv, hw]
    have hie : (xs.filter itemRisky).isEmpty = false := by
      cases hx : xs.filter itemRisky with
      | nil => exact absurd hx hne
      | cons a b => rfl
    simp [interpretReply, hm, hp, interpretFoods, hR, hie, hnames, hlines]

/-- C4 witness: the amended theorem's unsafe branch at a concrete reply with
one flagged item. -/
theorem C4_risk_filter_behavior_witness :
    interpretReply "\x7b\"foods\": [\x7b\"name\": \"a\", \"risk\": true, \"details\": \"d\"\x7d]\x7d"
      = Except.ok ⟨false, Detected.jlist [Json.str "a"],
          "リスクがある食品が含まれています。詳細をご確認ください。", "a: d"⟩ := by
  have h := (C4_risk_filter_behavior
      "\x7b\"foods\": [\x7b\"name\": \"a\", \"risk\": true, \"details\": \"d\"\x7d]\x7d"
      (("\x7b\"foods\": [\x7b\"name\": \"a\", \"risk\": true, \"details\": \"d\"\x7d]\x7d").data)
      [("foods", Json.arr [Json.obj [("name", Json.str "a"), ("risk", Json.bool true),
        ("details", Json.str "d")]])]
      [Json.obj [("name", Json.str "a"), ("risk", Json.bool true), ("details", Json.str "d")]]
      (by decide) (by decide) (by decide)
      (by intro x hx; simp at hx; subst hx; exact ⟨_, rfl⟩)).2
  exact (h (by decide) (by decide)).trans (by decide)

/-- C5, counterexample.  The claim says the matched substring is the first
balanced outermost brace match; the code's regex matches from the first
opening brace to the last closing brace.  On a reply holding a complete
object followed by a stray closing brace the two differ, and the code
consequently reports a parse error whose details are the unbalanced
match. -/
theorem C5_counterexample :
    extractJson ("\x7b\"a\": 1\x7d \x7d").data = some ("\x7b\"a\": 1\x7d \x7d").data
    ∧ extractJsonSpec ("\x7b\"a\": 1\x7d \x7d").data = some ("\x7b\"a\": 1\x7d").data
    ∧ ("\x7b\"a\": 1\x7d \x7d").data ≠ ("\x7b\"a\": 1\x7d").data
    ∧ interpretReply "\x7b\"a\": 1\x7d \x7d"
        = Except.ok ⟨false, Detected.none_,
            "GeminiのJSONパースエラー: Extra data", "\x7b\"a\": 1\x7d \x7d"⟩ := by
  refine ⟨by decide, by decide, by decide, by decide⟩

/-- C5, amended.  When the reply contains no opening brace followed by a
later closing brace, interpretation returns the extraction-failure result
whose details are the whole raw reply; when a match exists it spans from the
first opening brace to the last closing brace (no balance check), and if
that substring fails to parse the result is the parse-error message naming
the cause with the matched substring as details. -/
theorem C5_extraction_behavior (text : String) :
    (extractJson text.data = none →
       interpretReply text
         = Except.ok ⟨false, Detected.none_,
             "GeminiのレスポンスからJSONを抽出できませんでした", text⟩)
    ∧ ∀ m, extractJson text.data = some m →
        (∃ pre post, text.data = pre ++ m ++ post ∧ '{' ∉ pre ∧ '}' ∉ post ∧
           m.head? = some '{' ∧ m.getLast? = some '}')
        ∧ ∀ e, json_loads m = Except.error e →
            interpretReply text
              = Except.ok ⟨false, Detected.none_,
                  "GeminiのJSONパースエラー: " ++ e, m.asString⟩ := by
  constructor
  · intro h
    simp [interpretReply, h]
  · intro m hm
    refine ⟨extractJson_span hm, ?_⟩
    intro e he
    simp [interpretReply, hm, he]

/-- C5 witness: the amended theorem at the spec's malformed example, a
`foods` object whose array is never closed. -/
theorem C5_extraction_behavior_witness :
    interpretReply "\x7b\"foods\": [\x7d"
      = Except.ok ⟨false, Detected.none_,
          "GeminiのJSONパースエラー: Expecting value", "\x7b\"foods\": [\x7d"⟩ := by
  have h := ((C5_extraction_behavior "\x7b\"foods\": [\x7d").2
    (("\x7b\"foods\": [\x7d").data) (by decide)).2 "Expecting value" (by decide)
  exact h.trans (by decide)

/-- C6.  With no credential configured, `call_gemini_api` returns the
credential-error result for any oracle (the external call is never
attempted), and the endpoint wraps it as a 200 success envelope rather than
an HTTP error. -/
theorem C6_missing_credential_http (oracle : Except String String)
    (data : List (String × String)) (img : String)
    (hi : pyDictGet data "image" = some img)
    (hp : "data:image/".data.isPrefixOf img.data = true) :
    call_gemini_api none oracle img
      = Except.ok ⟨false, Detected.none_, "Gemini APIキーが設定されていません", ""⟩
    ∧ analyze_food none oracle (some data)
        = HttpResponse.ok true
            ⟨false, Detected.none_, "Gemini APIキーが設定されていません", ""⟩
    ∧ (analyze_food none oracle (some data)).status = 200 := by
  have h2 : analyze_food none oracle (some data)
      = HttpResponse.ok true
          ⟨false, Detected.none_, "Gemini APIキーが設定されていません", ""⟩ := by
    cases data with
    | nil => simp [pyDictGet] at hi
    | cons hd2 tl => simp [analyze_food, hi, hp, call_gemini_api]
  exact ⟨rfl, h2, by rw [h2]; rfl⟩

/-- C6 witness: concrete request with a valid data URI and no credential. -/
theorem C6_missing_credential_http_witness :
    analyze_food none (Except.ok "ignored")
        (some [("image", "data:image/png;base64,Zm9v")])
      = HttpResponse.ok true
          ⟨false, Detected.none_, "Gemini APIキーが設定されていません", ""⟩ :=
  (C6_missing_credential_http (Except.ok "ignored")
    [("image", "data:image/png;base64,Zm9v")] "data:image/png;base64,Zm9v"
    (by decide) (by decide)).2.1

/-- C7.  A missing body, an empty body, or a body without an `image` key
each yield the 400 missing-image error; a body whose `image` value does not
start with `data:image/` yields the 400 invalid-format error; in all cases
the result is independent of the oracle, so the external model is not
called, and the status is 400. -/
theorem C7_input_validation (key : Option String) (oracle : Except String String) :
    analyze_food key oracle none = HttpResponse.badRequest "画像データが提供されていません"
    ∧ analyze_food key oracle (some [])
        = HttpResponse.badRequest "画像データが提供されていません"
    ∧ (∀ data, pyDictGet data "image" = none →
         analyze_food key oracle (some data)
           = HttpResponse.badRequest "画像データが提供されていません")
    ∧ (∀ data img, pyDictGet data "image" = some img →
         "data:image/".data.isPrefixOf img.data = false →
         analyze_food key oracle (some data)
           = HttpResponse.badRequest "無効な画像形式です")
    ∧ (analyze_food key oracle none).status = 400 := by
  refine ⟨rfl, rfl, ?_, ?_, rfl⟩
  · intro data h
    cases data with
    | nil => rfl
    | cons hd2 tl => simp [analyze_food, h]
  · intro data img h1 h2
    cases data with
    | nil => simp [pyDictGet] at h1
    | cons hd2 tl => simp [analyze_food, h1, h2]

/-- C7 witness: the invalid-format branch at the spec's `notadatauri`
example. -/
theorem C7_input_validation_witness :
    analyze_food none (Except.ok "") (some [("image", "notadatauri")])
      = HttpResponse.badRequest "無効な画像形式です" :=
  (C7_input_validation none (Except.ok "")).2.2.2.1
    [("image", "notadatauri")] "notadatauri" (by decide) (by decide)

/-- C8, counterexample.  The claim says everything after the first comma is
used; `split(',')[1]` instead yields only the segment between the first and
second commas, as on `a,b,c`. -/
theorem C8_counterexample :
    stripB64 ("a,b,c").data = ("b").data
    ∧ stripB64 ("a,b,c").data ≠ ("b,c").data := by
  refine ⟨by decide, by decide⟩

/-- C8, amended.  Splitting takes the second comma-separated segment: with
no comma the whole string is used, and for a payload of the form
`a ++ "," ++ b` with comma-free `a` the data used is `b` truncated at its
next comma (so only when `b` has no further comma is it everything after
the first comma). -/
theorem C8_split_second_segment (a b : List Char) (ha : ',' ∉ a) :
    stripB64 a = a
    ∧ stripB64 (a ++ ',' :: b) = b.takeWhile (fun c => c ≠ ',') := by
  constructor
  · simp [stripB64, ha]
  · have h1 := pySplit_append ',' a b ha
    obtain ⟨t, ht⟩ := pySplit_head ',' b
    have hm : ',' ∈ a ++ ',' :: b := by simp
    simp [stripB64, hm, h1, ht]

/-- C8 witness: the data-URI prefix case, where the payload after the comma
is comma-free and is therefore used whole. -/
theorem C8_split_second_segment_witness :
    stripB64 (("data:image/png;base64").data ++ ',' :: ("AAAA").data)
      = ("AAAA").data.takeWhile (fun c => c ≠ ',') :=
  (C8_split_second_segment ("data:image/png;base64").data ("AAAA").data (by decide)).2

/-- C9.  Interpretation of the model's textual reply is a pure function of
the reply: on identical raw text it yields identical results (no hidden
randomness in the embedding of lines 99-137). -/
theorem C9_interpret_deterministic (t1 t2 : String) (h : t1 = t2) :
    interpretReply t1 = interpretReply t2 := by
  rw [h]

/-- C9 witness: the determinism theorem at a concrete reply. -/
theorem C9_interpret_deterministic_witness :
    interpretReply "no json here" = interpretReply "no json here" :=
  C9_interpret_deterministic "no json here" "no json here" rfl

/-- C10.  If the extracted JSON parses to an object whose risky items are
non-empty but some flagged item lacks a `name` or `details` key, the
comprehension raises and the outer handler absorbs it: `call_gemini_api`
returns the generic API-call-error result - `safe` false, null
`detected_food`, the exception text inside the message, empty details -
indistinguishable in shape from an upstream call failure. -/
theorem C10_missing_key_generic_error (key img text : String) (m : List Char)
    (kvs : List (String × Json)) (xs : List Json)
    (hdec : b64decode (stripB64 img.data) = Except.ok ())
    (hm : extractJson text.data = some m)
    (hp : json_loads m = Except.ok (Json.obj kvs))
    (hf : (dictGet kvs "foods").getD (Json.arr []) = Json.arr xs)
    (hobj : ∀ x ∈ xs, ∃ kv, x = Json.obj kv)
    (hmiss : ∃ f ∈ xs.filter itemRisky,
        jsonGet f "name" = none ∨ jsonGet f "details" = none) :
    ∃ e, interpretReply text = Except.error e
      ∧ call_gemini_api (some key) (Except.ok text) img
          = Except.ok ⟨false, Detected.none_, "Gemini API呼び出しエラー: " ++ e, ""⟩ := by
  obtain ⟨f0, hf0m, hf0⟩ := hmiss
  have hR : getRisky ((dictGet kvs "foods").getD (Json.arr []))
      = Except.ok (xs.filter itemRisky) := by
    rw [hf]
    exact getRisky_filter xs hobj
  have hie : (xs.filter itemRisky).isEmpty = false := by
    cases hx : xs.filter itemRisky with
    | nil => rw [hx] at hf0m; cases hf0m
    | cons a b => rfl
  have hErr : ∃ e, interpretFoods kvs = Except.error e := by
    cases hn : exMap (getItem "name") (xs.filter itemRisky) with
    | error e => exact ⟨e, by simp [interpretFoods, hR, hie, hn]⟩
    | ok names =>
      have hv : ∃ v, jsonGet f0 "name" = some v := by
        obtain ⟨b, hb⟩ := exMap_ok_mem hn f0 hf0m
        cases hvv : jsonGet f0 "name" with
        | none =>
          unfold getItem at hb
          rw [hvv] at hb
          cases f0 <;> simp at hb
        | some v => exact ⟨v, rfl⟩
      obtain ⟨v, hv⟩ := hv
      have hdt : jsonGet f0 "details" = none := by
        rcases hf0 with hna | hdt
        · rw [hna] at hv; cases hv
        · exact hdt
      have hmem0 : f0 ∈ xs := List.mem_of_mem_filter hf0m
      obtain ⟨kv0, hkv0⟩ := hobj f0 hmem0
      have hdle : ∃ e0, detailLine f0 = Except.error e0 := by
        refine ⟨"\x27details\x27", ?_⟩
        subst hkv0
        simp [detailLine, getItem, hv, hdt]
      obtain ⟨e0, he0⟩ := hdle
      obtain ⟨e2, he2⟩ := exMap_error_of_mem hf0m he0
      exact ⟨e2, by simp [interpretFoods, hR, hie, hn, he2]⟩
  obtain ⟨e, he⟩ := hErr
  have hIR : interpretReply text = Except.error e := by
    simp [interpretReply, hm, hp, he]
  exact ⟨e, hIR, by simp [call_gemini_api, hdec, hIR]⟩

/-- C10 witness: a reply whose single risky item has no `name` key, with a
well-formed image payload; the result is the generic API-error record with
the `KeyError` text in its message. -/
theorem C10_missing_key_generic_error_witness :
    ∃ e, interpretReply "\x7b\"foods\": [\x7b\"risk\": true\x7d]\x7d" = Except.error e
      ∧ call_gemini_api (some "k")
          (Except.ok "\x7b\"foods\": [\x7b\"risk\": true\x7d]\x7d")
          "data:image/png;base64,AAAA"
          = Except.ok ⟨false, Detected.none_, "Gemini API呼び出しエラー: " ++ e, ""⟩ :=
  C10_missing_key_generic_error "k" "data:image/png;base64,AAAA"
    "\x7b\"foods\": [\x7b\"risk\": true\x7d]\x7d"
    (("\x7b\"foods\": [\x7b\"risk\": true\x7d]\x7d").data)
    [("foods", Json.arr [Json.obj [("risk", Json.bool true)]])]
    [Json.obj [("risk", Json.bool true)]]
    (by decide) (by decide) (by decide) (by decide)
    (by intro x hx; simp at hx; subst hx; exact ⟨_, rfl⟩)
    ⟨Json.obj [("risk", Json.bool true)], by decide, Or.inl (by decide)⟩

end PregnancyFoodChecker
